import Mathlib

/-!
Verification of the logging facility of kleinanzeigen-bot
(`src/kleinanzeigen_bot/utils/loggers.py`).

The Python module is shallowly embedded: pure string manipulation becomes
Lean functions on `String` / `List Char`, the mutable pieces of state
(the root logger's handler list, the `LogFileHandle`'s `_handler` field,
the log-record object mutated by `CustomFormatter.format`) become explicit
state passing, and the opaque collaborators (`gettext`, `i18n.translate`,
`reflect.get_caller`) become function parameters.
-/

namespace KleinanzeigenBot
namespace Loggers

/-! ### colorama constants

`colorama.Fore.*` and `colorama.Style.*` are fixed ANSI escape strings. -/

def FORE_BLACK : String := "\x1b[30m"

def FORE_RED : String := "\x1b[31m"

def FORE_YELLOW : String := "\x1b[33m"

def FORE_MAGENTA : String := "\x1b[35m"

def FORE_RESET : String := "\x1b[39m"

def STYLE_BRIGHT : String := "\x1b[1m"

def STYLE_RESET_ALL : String := "\x1b[0m"

/-! ### logging level constants (`logging.DEBUG` etc.) -/

def DEBUG : Nat := 10

def INFO : Nat := 20

def WARNING : Nat := 30

def ERROR : Nat := 40

def CRITICAL : Nat := 50

/-- The single-quote character (used as a regex delimiter in the source). -/
def squote : Char := Char.ofNat 39

/-! ### The color tables of `CustomFormatter`

`dict.get(levelno, "")` with default `""` becomes an if-chain with default `""`. -/

def LEVEL_COLORS (levelno : Nat) : String :=
  if levelno = DEBUG then FORE_BLACK ++ STYLE_BRIGHT
  else if levelno = INFO then FORE_BLACK ++ STYLE_BRIGHT
  else if levelno = WARNING then FORE_YELLOW
  else if levelno = ERROR then FORE_RED
  else if levelno = CRITICAL then FORE_RED
  else ""

def MESSAGE_COLORS (levelno : Nat) : String :=
  if levelno = DEBUG then FORE_BLACK ++ STYLE_BRIGHT
  else if levelno = INFO then FORE_RESET
  else if levelno = WARNING then FORE_YELLOW
  else if levelno = ERROR then FORE_RED
  else if levelno = CRITICAL then FORE_RED ++ STYLE_BRIGHT
  else ""

def VALUE_COLORS (levelno : Nat) : String :=
  if levelno = DEBUG then FORE_BLACK ++ STYLE_BRIGHT
  else if levelno = INFO then FORE_MAGENTA
  else if levelno = WARNING then FORE_MAGENTA
  else if levelno = ERROR then FORE_MAGENTA
  else if levelno = CRITICAL then FORE_MAGENTA
  else ""

/-! ### The `re.sub` highlighting pass

The pattern is `\[([^\]]+)\]|\"([^\"]+)\"|\'([^\']+)\'`.  The three
alternatives each start with a distinct literal delimiter, so at every scan
position at most one alternative can apply and the alternation is keyed on
the first character.  Each alternative requires at least one inner character
(`+`), its character class excludes the closing delimiter, and the greedy run
must be followed by the literal closing delimiter (no shorter run can be,
since every character of the run differs from the closer):  so a match at an
opener is exactly "a non-empty maximal run of non-closer characters followed
by the closer". -/

/-- Maps a regex-alternative opening delimiter to its closing delimiter
(`[`→`]`, `"`→`"`, `'`→`'`); any other character starts no alternative. -/
def delimClose (c : Char) : Option Char :=
  if c = '[' then some ']'
  else if c = '"' then some '"'
  else if c = squote then some squote
  else none

/-- Attempts the regex alternative for closing delimiter `closer` against the
characters following the opener: a non-empty run of non-`closer` characters
followed by `closer`.  Returns the captured group and the characters after the
match, or `none` when the alternative does not match here. -/
def scanDelim (closer : Char) (cs : List Char) : Option (List Char × List Char) :=
  let inner := cs.takeWhile (fun c => c != closer)
  match cs.dropWhile (fun c => c != closer) with
  | [] => none
  | _ :: rest => if inner = [] then none else some (inner, rest)

/-- The replacement template of the substitution lambda:
`f"[{value_color}{content}{colorama.Fore.RESET}{msg_color}]"`. -/
def replText (value_color msg_color : String) (content : List Char) : List Char :=
  '[' :: (value_color.toList ++ content ++ FORE_RESET.toList ++ msg_color.toList ++ [']'])

/-- `re.sub` left-to-right scan: at each position try the (unique possible)
alternative; on a match emit the replacement and resume after the match, else
emit the character and advance one position.  Structural recursion on `fuel`;
`fuel ≥ cs.length` suffices since every step strictly shrinks the input. -/
def highlightFuel (value_color msg_color : String) : Nat → List Char → List Char
  | 0, cs => cs
  | _ + 1, [] => []
  | fuel + 1, c :: rest =>
    match delimClose c with
    | none => c :: highlightFuel value_color msg_color fuel rest
    | some closer =>
      match scanDelim closer rest with
      | none => c :: highlightFuel value_color msg_color fuel rest
      | some (inner, rest') =>
          replText value_color msg_color inner ++
            highlightFuel value_color msg_color fuel rest'

/-- The full `re.sub(pattern, lambda, msg)` call on the message characters. -/
def highlightChars (value_color msg_color : String) (cs : List Char) : List Char :=
  highlightFuel value_color msg_color cs.length cs

/-! ### Lemmas about the scanner -/

theorem span_of_not_mem {k : Char} {inner : List Char} (rest : List Char) (h : k ∉ inner) :
    (inner ++ k :: rest).takeWhile (fun c => c != k) = inner ∧
      (inner ++ k :: rest).dropWhile (fun c => c != k) = k :: rest := by
  induction inner with
  | nil =>
      constructor
      · exact List.takeWhile_cons_of_neg (by simp)
      · exact List.dropWhile_cons_of_neg (by simp)
  | cons a t ih =>
      have hak : a ≠ k := fun hak => h (by simp [hak])
      have ht := ih (fun hm => h (List.mem_cons_of_mem a hm))
      constructor
      · rw [List.cons_append, List.takeWhile_cons_of_pos (by simp [hak]), ht.1]
      · rw [List.cons_append, List.dropWhile_cons_of_pos (by simp [hak]), ht.2]

theorem scanDelim_of_split {k : Char} {inner : List Char} (rest : List Char)
    (hne : inner ≠ []) (hmem : k ∉ inner) :
    scanDelim k (inner ++ k :: rest) = some (inner, rest) := by
  have hs := span_of_not_mem rest hmem
  unfold scanDelim
  rw [hs.2]
  simp [hs.1, hne]

theorem scanDelim_split {k : Char} {cs inner rest : List Char}
    (h : scanDelim k cs = some (inner, rest)) :
    cs = inner ++ k :: rest ∧ inner ≠ [] ∧ k ∉ inner := by
  unfold scanDelim at h
  cases hd : cs.dropWhile (fun c => c != k) with
  | nil => rw [hd] at h; exact absurd h (by simp)
  | cons x xs =>
      rw [hd] at h
      by_cases he : cs.takeWhile (fun c => c != k) = []
      · simp [he] at h
      · simp only [he, if_false, Option.some.injEq, Prod.mk.injEq] at h
        obtain ⟨h1, h2⟩ := h
        have hne' : cs.dropWhile (fun c => c != k) ≠ [] := by simp [hd]
        have hx := List.head_dropWhile_not (fun c => c != k) cs hne'
        simp only [hd, List.head_cons, bne_eq_false_iff_eq] at hx
        subst hx
        refine ⟨?_, ?_, ?_⟩
        · rw [← h1, ← h2, ← hd, List.takeWhile_append_dropWhile]
        · rw [← h1]; exact he
        · rw [← h1]
          intro hk
          have := List.mem_takeWhile_imp hk
          simp at this

theorem scanDelim_none_of_not_mem {k : Char} {cs : List Char} (h : k ∉ cs) :
    scanDelim k cs = none := by
  unfold scanDelim
  have hd : cs.dropWhile (fun c => c != k) = [] := by
    rw [List.dropWhile_eq_nil_iff]
    intro x hx
    simp only [bne_iff_ne, ne_eq]
    exact fun hxk => h (hxk ▸ hx)
  rw [hd]

theorem scanDelim_cons_self (k : Char) (s : List Char) :
    scanDelim k (k :: s) = none := by
  unfold scanDelim
  rw [List.dropWhile_cons_of_neg (by simp), List.takeWhile_cons_of_neg (by simp)]
  simp

theorem scanDelim_rest_lt {k : Char} {cs inner rest : List Char}
    (h : scanDelim k cs = some (inner, rest)) : rest.length < cs.length := by
  obtain ⟨hcs, hne, -⟩ := scanDelim_split h
  subst hcs
  have : inner.length ≥ 1 := List.length_pos.mpr hne
  simp [List.length_append]
  omega

/-- The result of `highlightFuel` does not depend on the fuel, provided the
fuel covers the input length. -/
theorem highlightFuel_congr (vc mc : String) :
    ∀ f1 : Nat, ∀ {cs : List Char}, ∀ {f2 : Nat}, cs.length ≤ f1 → cs.length ≤ f2 →
      highlightFuel vc mc f1 cs = highlightFuel vc mc f2 cs := by
  intro f1
  induction f1 with
  | zero =>
      intro cs f2 h1 _
      have : cs = [] := List.length_eq_zero.mp (Nat.le_zero.mp h1)
      subst this
      cases f2 <;> rfl
  | succ f ih =>
      intro cs f2 h1 h2
      match cs with
      | [] => cases f2 <;> rfl
      | c :: rest =>
          match f2 with
          | 0 => exact absurd h2 (by simp)
          | g + 1 =>
              simp only [List.length_cons, Nat.add_le_add_iff_right] at h1 h2
              show highlightFuel vc mc (f + 1) (c :: rest) =
                highlightFuel vc mc (g + 1) (c :: rest)
              cases hdc : delimClose c with
              | none => simp only [highlightFuel, hdc, ih h1 h2]
              | some k =>
                  cases hsd : scanDelim k rest with
                  | none => simp only [highlightFuel, hdc, hsd, ih h1 h2]
                  | some p =>
                      obtain ⟨inner, rest'⟩ := p
                      have hlt : rest'.length < rest.length := scanDelim_rest_lt hsd
                      simp only [highlightFuel, hdc, hsd,
                        ih (Nat.le_of_lt (Nat.lt_of_lt_of_le hlt h1))
                          (Nat.le_of_lt (Nat.lt_of_lt_of_le hlt h2))]

theorem highlightChars_cons_of_no_delim (vc mc : String) {c : Char} (cs : List Char)
    (h : delimClose c = none) :
    highlightChars vc mc (c :: cs) = c :: highlightChars vc mc cs := by
  show highlightFuel vc mc (cs.length + 1) (c :: cs) = _
  simp only [highlightFuel, h]
  rfl

theorem highlightChars_cons_of_nomatch (vc mc : String) {c k : Char} (cs : List Char)
    (hc : delimClose c = some k) (hs : scanDelim k cs = none) :
    highlightChars vc mc (c :: cs) = c :: highlightChars vc mc cs := by
  show highlightFuel vc mc (cs.length + 1) (c :: cs) = _
  simp only [highlightFuel, hc, hs]
  rfl

theorem highlightChars_match (vc mc : String) {c k : Char} {inner : List Char}
    (rest : List Char) (hc : delimClose c = some k) (hne : inner ≠ []) (hmem : k ∉ inner) :
    highlightChars vc mc (c :: (inner ++ k :: rest)) =
      replText vc mc inner ++ highlightChars vc mc rest := by
  show highlightFuel vc mc ((inner ++ k :: rest).length + 1) (c :: (inner ++ k :: rest)) = _
  simp only [highlightFuel, hc, scanDelim_of_split rest hne hmem]
  have hlen : rest.length ≤ (inner ++ k :: rest).length := by
    simp [List.length_append]
    omega
  rw [highlightFuel_congr vc mc _ hlen (Nat.le_refl _)]
  rfl

/-! ### `CustomFormatter.format` -/

/-- A log record as far as `format` reads it: `levelno`, `levelname`, `msg`
(string messages, no `args`). -/
structure LogRecord where
  levelno : Nat
  levelname : String
  msg : String
deriving Repr, DecidableEq, Inhabited

/-- `copy.deepcopy(record)`: a fresh record with equal fields. -/
def deepcopy (r : LogRecord) : LogRecord := ⟨r.levelno, r.levelname, r.msg⟩

/-- `CustomFormatter.format(record)`.  `tr` is the opaque `gettext` translation
collaborator `_`.  The parent `logging.Formatter` was constructed with
`"%(levelname)s %(message)s"`, so `super().format(record)` renders
`record.levelname ++ " " ++ record.getMessage()`. -/
def CustomFormatter_format (tr : String → String) (record0 : LogRecord) : String :=
  let record := deepcopy record0
  let level_color := LEVEL_COLORS record.levelno
  let msg_color := MESSAGE_COLORS record.levelno
  let value_color := VALUE_COLORS record.levelno
  let levelname := if record.levelno > DEBUG then tr record.levelname else record.levelname
  let record := { record with
    levelname := level_color ++ "[" ++ levelname ++ "]" ++ STYLE_RESET_ALL }
  let record := { record with
    msg := (highlightChars value_color msg_color record.msg.toList).asString }
  let record := { record with msg := msg_color ++ record.msg ++ STYLE_RESET_ALL }
  record.levelname ++ " " ++ record.msg

/-! ### Instrumented substitution

`formatE` mirrors `format` but makes the only possible failure point of the
substitution callback explicit: the lambda evaluates
`match.group(1) or match.group(2) or match.group(3)` — a chain of Python
`or`s over the three capture groups, where an absent (`None`) or empty group
is falsy.  If the chain produced no content the substitution step would have
failed to produce a highlighted value; `highlightFuelE` raises an explicit
error in that case, and we prove the error case is unreachable. -/

/-- Python `a or b` specialised to optional captured groups: an absent group
(`None`) and an empty captured string are both falsy. -/
def pyOrGroup (a b : Option (List Char)) : Option (List Char) :=
  match a with
  | some s => if s = [] then b else some s
  | none => b

/-- The content selected by the substitution lambda.  The alternative opened
by `[` binds capture group 1, the one opened by `"` group 2, the one opened by
`'` group 3; the other two groups of a match are `None`. -/
def groupChoice (c : Char) (inner : List Char) : Option (List Char) :=
  if c = '[' then pyOrGroup (pyOrGroup (some inner) none) none
  else if c = '"' then pyOrGroup (pyOrGroup none (some inner)) none
  else pyOrGroup (pyOrGroup none none) (some inner)

def highlightFuelE (value_color msg_color : String) :
    Nat → List Char → Except String (List Char)
  | 0, cs => .ok cs
  | _ + 1, [] => .ok []
  | fuel + 1, c :: rest =>
    match delimClose c with
    | none =>
        match highlightFuelE value_color msg_color fuel rest with
        | .error e => .error e
        | .ok tail => .ok (c :: tail)
    | some closer =>
      match scanDelim closer rest with
      | none =>
          match highlightFuelE value_color msg_color fuel rest with
          | .error e => .error e
          | .ok tail => .ok (c :: tail)
      | some (inner, rest') =>
          match groupChoice c inner with
          | none => .error "substitution selected no group content"
          | some content =>
              match highlightFuelE value_color msg_color fuel rest' with
              | .error e => .error e
              | .ok tail => .ok (replText value_color msg_color content ++ tail)

/-- `format` with the substitution failure point made explicit. -/
def CustomFormatter_formatE (tr : String → String) (record0 : LogRecord) :
    Except String String :=
  let record := deepcopy record0
  let level_color := LEVEL_COLORS record.levelno
  let msg_color := MESSAGE_COLORS record.levelno
  let value_color := VALUE_COLORS record.levelno
  let levelname := if record.levelno > DEBUG then tr record.levelname else record.levelname
  let record := { record with
    levelname := level_color ++ "[" ++ levelname ++ "]" ++ STYLE_RESET_ALL }
  match highlightFuelE value_color msg_color record.msg.toList.length record.msg.toList with
  | .error e => .error e
  | .ok hl =>
    let record := { record with msg := hl.asString }
    let record := { record with msg := msg_color ++ record.msg ++ STYLE_RESET_ALL }
    .ok (record.levelname ++ " " ++ record.msg)

theorem groupChoice_of_ne_nil {c : Char} {inner : List Char} (h : inner ≠ []) :
    groupChoice c inner = some inner := by
  unfold groupChoice pyOrGroup
  by_cases h1 : c = '['
  · simp [h1, h]
  · by_cases h2 : c = '"' <;> simp [h1, h2, h]

/-- The substitution step never fails: every match carries non-empty content,
so the `or`-chain over the capture groups always selects it. -/
theorem highlightFuelE_ok (vc mc : String) :
    ∀ (fuel : Nat) (cs : List Char),
      highlightFuelE vc mc fuel cs = .ok (highlightFuel vc mc fuel cs) := by
  intro fuel
  induction fuel with
  | zero => intro cs; rfl
  | succ f ih =>
      intro cs
      match cs with
      | [] => rfl
      | c :: rest =>
          cases hdc : delimClose c with
          | none => simp only [highlightFuelE, highlightFuel, hdc, ih rest]
          | some k =>
              cases hsd : scanDelim k rest with
              | none => simp only [highlightFuelE, highlightFuel, hdc, hsd, ih rest]
              | some p =>
                  obtain ⟨inner, rest'⟩ := p
                  have hne : inner ≠ [] := (scanDelim_split hsd).2.1
                  simp only [highlightFuelE, highlightFuel, hdc, hsd,
                    groupChoice_of_ne_nil hne, ih rest']

/-! ### `format` on an explicit heap of record objects

Python log records are shared mutable objects: the same record instance is
passed to every handler.  To state what `format` does to the *caller's*
object, records live in an explicit heap (a list of records addressed by
index).  `copy.deepcopy(record)` allocates a fresh object at a fresh address
and rebinds the local variable `record` to it; each later assignment
`record.f = …` mutates the object at that fresh address. -/

def heapGet (heap : List LogRecord) (j : Nat) : LogRecord := heap.getD j default

def CustomFormatter_format_heap (tr : String → String) (heap0 : List LogRecord)
    (i : Nat) : List LogRecord × String :=
  let j := heap0.length
  let heap1 := heap0 ++ [deepcopy (heapGet heap0 i)]
  let r1 := heapGet heap1 j
  let level_color := LEVEL_COLORS r1.levelno
  let msg_color := MESSAGE_COLORS r1.levelno
  let value_color := VALUE_COLORS r1.levelno
  let levelname := if r1.levelno > DEBUG then tr r1.levelname else r1.levelname
  let heap2 := heap1.set j { r1 with
    levelname := level_color ++ "[" ++ levelname ++ "]" ++ STYLE_RESET_ALL }
  let r2 := heapGet heap2 j
  let heap3 := heap2.set j { r2 with
    msg := (highlightChars value_color msg_color r2.msg.toList).asString }
  let r3 := heapGet heap3 j
  let heap4 := heap3.set j { r3 with msg := msg_color ++ r3.msg ++ STYLE_RESET_ALL }
  let r4 := heapGet heap4 j
  (heap4, r4.levelname ++ " " ++ r4.msg)

/-! ### `configure_console_logging`

Handlers attached to the root logger are modelled by their observable
configuration: the `setLevel` threshold, whether the ad-hoc
`filter = lambda rec: rec.levelno <= logging.INFO` filter was added, and the
identity of the formatter object set on them.  The process-wide registry
(`LOG_ROOT.handlers`) is the list of attached handlers; `addHandler`
appends. -/

structure Handler where
  level : Nat
  hasInfoCapFilter : Bool
  formatterId : Nat
deriving Repr, DecidableEq

/-- Whether the handler emits a record of severity `levelno`: the record must
reach the handler's level and pass all its filters
(`logging.Handler` semantics). -/
def Handler.emits (h : Handler) (levelno : Nat) : Bool :=
  decide (h.level ≤ levelno) && (if h.hasInfoCapFilter then decide (levelno ≤ INFO) else true)

/-- One call of `configure_console_logging()`.  `formatter_id` is the identity
of the `CustomFormatter` instance constructed by this call; both handlers get
the same instance.  `stdout_log`: level `DEBUG`, plus the filter
`rec.levelno <= logging.INFO`; `stderr_log`: level `WARNING`, no filter. -/
def configure_console_logging (formatter_id : Nat) (registry : List Handler) :
    List Handler :=
  let stdout_log : Handler :=
    { level := DEBUG, hasInfoCapFilter := true, formatterId := formatter_id }
  let registry := registry ++ [stdout_log]
  let stderr_log : Handler :=
    { level := WARNING, hasInfoCapFilter := false, formatterId := formatter_id }
  registry ++ [stderr_log]

/-! ### `LogFileHandle` and `configure_file_logging`

The rotating file handler object is identified by a token (`Nat`).  The
handle's `_handler` field is `Option Nat` (`None` after a completed close).
`close()` may hit an exception inside `handler.flush()` or `handler.close()`;
`CloseEnv` says which handler tokens raise there.  The returned
`CloseOutcome` records whether the Python call returned normally or
propagated an exception, and the returned handle/registry reflect exactly the
mutations performed before any raise. -/

structure CloseEnv where
  flushRaises : Nat → Bool
  closeRaises : Nat → Bool

inductive CloseOutcome where
  | ok : CloseOutcome
  | raised : CloseOutcome
deriving Repr, DecidableEq

structure LogFileHandle where
  file_path : String
  handler : Option Nat
deriving Repr, DecidableEq

/-- `is_closed(self)`: `return not self._handler`. -/
def LogFileHandle.is_closed (self : LogFileHandle) : Bool := self.handler.isNone

/-- `close(self)`: under `if self._handler:` — `flush()`, `removeHandler()`,
`handler.close()`, then `self._handler = None`.  The assignment is only
reached when none of the preceding calls raised. -/
def LogFileHandle.close (self : LogFileHandle) (env : CloseEnv)
    (registry : List Nat) : LogFileHandle × List Nat × CloseOutcome :=
  match self.handler with
  | some h =>
      if env.flushRaises h then
        (self, registry, .raised)
      else
        let registry := registry.erase h
        if env.closeRaises h then
          (self, registry, .raised)
        else
          ({ self with handler := none }, registry, .ok)
  | none => (self, registry, .ok)

/-- `configure_file_logging(log_file_path)`: creates the rotating handler
`fh`, attaches it to the root logger and returns the handle. -/
def configure_file_logging (log_file_path : String) (fh : Nat)
    (registry : List Nat) : LogFileHandle × List Nat :=
  (⟨log_file_path, some fh⟩, registry ++ [fh])

/-! ### `TranslatingLogger._log`

`i18n.translate` and `reflect.get_caller` are opaque collaborators, passed in
as functions (`C` is the opaque caller-context type).  The embedding returns
the message forwarded to `super()._log` (the record-construction/dispatch
path) together with the trace of calls made to `i18n.translate`. -/

def TranslatingLogger_log (C : Type) (translate : String → C → String)
    (get_caller : Nat → C) (level : Nat) (msg : String) :
    String × List (String × C) :=
  if level ≠ DEBUG then
    let ctx := get_caller 2
    let translated := translate msg ctx
    (translated, [(msg, ctx)])
  else
    (msg, [])

/-! ### Claim theorems -/

/-- Claim C1, counterexample: the claim states that a `close()` that raises
still transitions the handle to closed.  On the code this is false: with a
handler whose `flush()` raises, `close()` propagates the exception and
`is_closed()` afterwards returns `false`, because `self._handler = None` is
only reached after `flush`, `removeHandler` and `handler.close` all
succeeded. -/
theorem claim_C1_counterexample :
    ((⟨"kleinanzeigen.log", some 0⟩ : LogFileHandle).close
        ⟨fun _ => true, fun _ => false⟩ [0]).2.2 = CloseOutcome.raised ∧
    ((⟨"kleinanzeigen.log", some 0⟩ : LogFileHandle).close
        ⟨fun _ => true, fun _ => false⟩ [0]).1.is_closed = false := by
  exact ⟨rfl, rfl⟩

/-- Claim C1, amended: if an error is raised during `LogFileHandle.close()`
(by the handler's flush or close), the handle does NOT transition to the
closed state — the exception propagates and a subsequent `is_closed()`
returns `false`, since `self._handler` is cleared only after a fully
successful close. -/
theorem claim_C1_amended (self : LogFileHandle) (env : CloseEnv)
    (registry : List Nat) (h : (self.close env registry).2.2 = CloseOutcome.raised) :
    (self.close env registry).1.is_closed = false := by
  cases hh : self.handler with
  | none =>
      simp only [LogFileHandle.close, hh] at h
      exact absurd h (by decide)
  | some hd =>
      simp only [LogFileHandle.close, hh] at h ⊢
      by_cases hf : env.flushRaises hd
      · simp [hf, LogFileHandle.is_closed, hh]
      · simp only [hf, if_false, Bool.false_eq_true] at h ⊢
        by_cases hcl : env.closeRaises hd
        · simp [hcl, LogFileHandle.is_closed, hh]
        · simp [hcl] at h

/-- Claim C1 amended, witness at a concrete raising environment. -/
theorem claim_C1_amended_witness :
    (((⟨"app.log", some 3⟩ : LogFileHandle).close
        ⟨fun _ => true, fun _ => false⟩ [3]).1).is_closed = false :=
  claim_C1_amended ⟨"app.log", some 3⟩ ⟨fun _ => true, fun _ => false⟩ [3] (by rfl)

/-- Claim C3: for every log call on the Translating Logger with
level ≠ DEBUG, `i18n.translate` is invoked exactly once, with the raw message
and the caller context obtained from fixed stack depth 2, and its result is
what is forwarded to `super()._log` (record construction); for level = DEBUG
the translate collaborator is never invoked and the raw message is forwarded
unchanged. -/
theorem claim_C3_translating_logger (C : Type) (translate : String → C → String)
    (get_caller : Nat → C) (level : Nat) (msg : String) :
    (level ≠ DEBUG →
      (TranslatingLogger_log C translate get_caller level msg).2 =
        [(msg, get_caller 2)] ∧
      (TranslatingLogger_log C translate get_caller level msg).1 =
        translate msg (get_caller 2)) ∧
    (level = DEBUG →
      (TranslatingLogger_log C translate get_caller level msg).2 = [] ∧
      (TranslatingLogger_log C translate get_caller level msg).1 = msg) := by
  unfold TranslatingLogger_log
  by_cases h : level = DEBUG <;> simp [h]

/-- Claim C3, witness: an INFO call translates exactly once at depth 2, a
DEBUG call never calls the translator. -/
theorem claim_C3_witness :
    (TranslatingLogger_log Nat (fun s _ => s ++ "!") (fun n => n) INFO "hi").2 =
      [("hi", 2)] ∧
    (TranslatingLogger_log Nat (fun s _ => s ++ "!") (fun n => n) DEBUG "hi").2 = [] :=
  ⟨((claim_C3_translating_logger Nat (fun s _ => s ++ "!") (fun n => n) INFO "hi").1
      (by decide)).1,
    ((claim_C3_translating_logger Nat (fun s _ => s ++ "!") (fun n => n) DEBUG "hi").2
      rfl).1⟩

/-- Claim C4: a handle returned by `configure_file_logging` is not closed on
return; after a successful `close()` it is closed and the call returned
normally; a second `close()` on the already-closed handle is a no-op that
never raises (for every environment and registry), and the handle stays
closed. -/
theorem claim_C4_handle_lifecycle (path : String) (fh : Nat)
    (registry : List Nat) (env : CloseEnv) (hf : env.flushRaises fh = false)
    (hc : env.closeRaises fh = false) :
    (configure_file_logging path fh registry).1.is_closed = false ∧
    ((configure_file_logging path fh registry).1.close env
        (configure_file_logging path fh registry).2).2.2 = CloseOutcome.ok ∧
    ((configure_file_logging path fh registry).1.close env
        (configure_file_logging path fh registry).2).1.is_closed = true ∧
    (∀ (env2 : CloseEnv) (registry2 : List Nat),
      (((configure_file_logging path fh registry).1.close env
          (configure_file_logging path fh registry).2).1.close env2 registry2) =
        (((configure_file_logging path fh registry).1.close env
            (configure_file_logging path fh registry).2).1, registry2,
          CloseOutcome.ok)) := by
  refine ⟨rfl, ?_, ?_, ?_⟩
  · simp [configure_file_logging, LogFileHandle.close, hf, hc]
  · simp [configure_file_logging, LogFileHandle.close, LogFileHandle.is_closed, hf, hc]
  · intro env2 registry2
    simp [configure_file_logging, LogFileHandle.close, hf, hc]

/-- Claim C4, witness at a concrete non-raising environment. -/
theorem claim_C4_witness :
    (configure_file_logging "kleinanzeigen.log" 7 []).1.is_closed = false ∧
    ((configure_file_logging "kleinanzeigen.log" 7 []).1.close
        ⟨fun _ => false, fun _ => false⟩
        (configure_file_logging "kleinanzeigen.log" 7 []).2).2.2 = CloseOutcome.ok ∧
    ((configure_file_logging "kleinanzeigen.log" 7 []).1.close
        ⟨fun _ => false, fun _ => false⟩
        (configure_file_logging "kleinanzeigen.log" 7 []).2).1.is_closed = true ∧
    ((((configure_file_logging "kleinanzeigen.log" 7 []).1.close
        ⟨fun _ => false, fun _ => false⟩
        (configure_file_logging "kleinanzeigen.log" 7 []).2).1.close
          ⟨fun _ => true, fun _ => true⟩ [1, 2]) =
      ((((configure_file_logging "kleinanzeigen.log" 7 []).1.close
          ⟨fun _ => false, fun _ => false⟩
          (configure_file_logging "kleinanzeigen.log" 7 []).2).1), [1, 2],
        CloseOutcome.ok)) := by
  have h := claim_C4_handle_lifecycle "kleinanzeigen.log" 7 []
    ⟨fun _ => false, fun _ => false⟩ rfl rfl
  exact ⟨h.1, h.2.1, h.2.2.1, h.2.2.2 ⟨fun _ => true, fun _ => true⟩ [1, 2]⟩

/-- Claim C5: every call of `configure_console_logging` appends exactly two
handlers to the registry (never replacing existing entries), the two share
one formatter instance, the first emits exactly the severities in
[DEBUG, INFO] and the second exactly the severities ≥ WARNING; after n calls,
2·n handlers have been added. -/
theorem claim_C5_console_pair (fid : Nat) (registry : List Handler) :
    (∃ h1 h2 : Handler,
      configure_console_logging fid registry = registry ++ [h1, h2] ∧
      h1.formatterId = h2.formatterId ∧
      (∀ l : Nat, h1.emits l = true ↔ (DEBUG ≤ l ∧ l ≤ INFO)) ∧
      (∀ l : Nat, h2.emits l = true ↔ WARNING ≤ l)) ∧
    (∀ fids : List Nat,
      (fids.foldl (fun r f => configure_console_logging f r) registry).length =
        registry.length + 2 * fids.length) := by
  constructor
  · refine ⟨⟨DEBUG, true, fid⟩, ⟨WARNING, false, fid⟩, ?_, rfl, ?_, ?_⟩
    · simp [configure_console_logging]
    · intro l
      simp [Handler.emits]
    · intro l
      simp [Handler.emits]
  · intro fids
    induction fids generalizing registry with
    | nil => simp
    | cons f t ih =>
        simp only [List.foldl_cons, List.length_cons]
        rw [ih]
        simp [configure_console_logging]
        omega

/-- Claim C2: for every log record with a string message, the colorizing
formatter's `format` never raises — the instrumented formatter, whose only
possible internal failure is the substitution callback selecting no group
content, always returns `.ok` with exactly the result of the plain
formatter (so the fallback clause of the claim is never exercised: no
internal failure can occur in the substitution step on string input). -/
theorem claim_C2_format_never_raises (tr : String → String) (record : LogRecord) :
    CustomFormatter_formatE tr record = Except.ok (CustomFormatter_format tr record) := by
  unfold CustomFormatter_formatE CustomFormatter_format highlightChars
  dsimp only [deepcopy]
  rw [highlightFuelE_ok]

/-- Claim C9: `format` does not mutate the caller's record: in the heap
model, the record object at the caller's address is exactly the same after
`format` returns (all mutations target the private deep copy). -/
theorem claim_C9_format_no_mutation (tr : String → String)
    (heap : List LogRecord) (i : Nat) (hi : i < heap.length) :
    (CustomFormatter_format_heap tr heap i).1[i]? = heap[i]? := by
  unfold CustomFormatter_format_heap
  have hij : heap.length ≠ i := Nat.ne_of_gt hi
  have hij1 : (heap ++ [deepcopy (heapGet heap i)]).length ≠ i + 0 := by
    simp [List.length_append]
    omega
  simp only []
  rw [List.getElem?_set_ne hij, List.getElem?_set_ne hij, List.getElem?_set_ne hij,
    List.getElem?_append]
  simp [hi]

/-- Claim C9, witness at a concrete one-record heap. -/
theorem claim_C9_witness :
    (CustomFormatter_format_heap (fun s => s) [⟨INFO, "INFO", "Ad [42] done"⟩] 0).1[0]? =
      [(⟨INFO, "INFO", "Ad [42] done"⟩ : LogRecord)][0]? :=
  claim_C9_format_no_mutation (fun s => s) [⟨INFO, "INFO", "Ad [42] done"⟩] 0
    (by decide)

/-- The highlighting pass never shortens the text: each replacement inserts
the color markers around the preserved inner content. -/
theorem highlightFuel_length_ge (vc mc : String) :
    ∀ (fuel : Nat) (cs : List Char), cs.length ≤ fuel →
      cs.length ≤ (highlightFuel vc mc fuel cs).length := by
  intro fuel
  induction fuel with
  | zero =>
      intro cs _
      exact Nat.le_refl _
  | succ f ih =>
      intro cs h
      match cs with
      | [] => exact Nat.zero_le _
      | c :: rest =>
          simp only [List.length_cons] at h
          have hrest : rest.length ≤ f := Nat.le_of_succ_le_succ h
          cases hdc : delimClose c with
          | none =>
              simp only [highlightFuel, hdc, List.length_cons]
              exact Nat.succ_le_succ (ih rest hrest)
          | some k =>
              cases hsd : scanDelim k rest with
              | none =>
                  simp only [highlightFuel, hdc, hsd, List.length_cons]
                  exact Nat.succ_le_succ (ih rest hrest)
              | some p =>
                  obtain ⟨inner, rest'⟩ := p
                  obtain ⟨hsplit, hne, -⟩ := scanDelim_split hsd
                  have hlt : rest'.length < rest.length := scanDelim_rest_lt hsd
                  have hih := ih rest' (le_trans (Nat.le_of_lt hlt) hrest)
                  simp only [highlightFuel, hdc, hsd, replText, List.length_cons,
                    List.length_append]
                  subst hsplit
                  simp only [List.length_cons, List.length_append]
                  omega

/-- Claim C8: for every input message and every severity level, the string
produced by the colorizing formatter is at least as long as the input
message: colorization only inserts markers, never deletes message content. -/
theorem claim_C8_length_monotone (tr : String → String) (levelno : Nat)
    (levelname msg : String) :
    msg.length ≤ (CustomFormatter_format tr ⟨levelno, levelname, msg⟩).length := by
  unfold CustomFormatter_format
  dsimp only [deepcopy]
  simp only [String.length_append]
  have hl : msg.toList.length ≤
      (highlightChars (VALUE_COLORS levelno) (MESSAGE_COLORS levelno) msg.toList).length :=
    highlightFuel_length_ge _ _ _ _ (Nat.le_refl _)
  have hms : msg.length = msg.toList.length := rfl
  have has : ((highlightChars (VALUE_COLORS levelno) (MESSAGE_COLORS levelno)
      msg.toList).asString).length =
      (highlightChars (VALUE_COLORS levelno) (MESSAGE_COLORS levelno) msg.toList).length :=
    rfl
  omega

/-- Claim C7: in the single-pass scan over the three delimiter styles
`[...]`, `"..."`, `'...'`, every matched delimited segment (non-empty inner
content free of the closing delimiter, followed by the closer) is replaced by
`[` + value color + inner content + reset + message color + `]`, and an
unbalanced opening delimiter with no closing delimiter in the remainder is
left untouched. -/
theorem claim_C7_highlight_substitution (vc mc : String) :
    (∀ (opener closer : Char) (inner rest : List Char),
      ((opener = '[' ∧ closer = ']') ∨ (opener = '"' ∧ closer = '"') ∨
        (opener = squote ∧ closer = squote)) →
      inner ≠ [] → closer ∉ inner →
      highlightChars vc mc (opener :: (inner ++ closer :: rest)) =
        ('[' :: (vc.toList ++ inner ++ FORE_RESET.toList ++ mc.toList ++ [']'])) ++
          highlightChars vc mc rest) ∧
    (∀ (opener closer : Char) (rest : List Char),
      ((opener = '[' ∧ closer = ']') ∨ (opener = '"' ∧ closer = '"') ∨
        (opener = squote ∧ closer = squote)) →
      closer ∉ rest →
      highlightChars vc mc (opener :: rest) = opener :: highlightChars vc mc rest) := by
  have hdelim : ∀ {opener closer : Char},
      ((opener = '[' ∧ closer = ']') ∨ (opener = '"' ∧ closer = '"') ∨
        (opener = squote ∧ closer = squote)) → delimClose opener = some closer := by
    intro opener closer hof
    rcases hof with ⟨h1, h2⟩ | ⟨h1, h2⟩ | ⟨h1, h2⟩ <;> subst h1 <;> subst h2 <;> rfl
  constructor
  · intro opener closer inner rest hof hne hmem
    exact highlightChars_match vc mc rest (hdelim hof) hne hmem
  · intro opener closer rest hof hmem
    exact highlightChars_cons_of_nomatch vc mc rest (hdelim hof)
      (scanDelim_none_of_not_mem hmem)

/-- Claim C7, witness: a concrete bracketed match is replaced, and a concrete
unbalanced opener is left untouched. -/
theorem claim_C7_witness :
    highlightChars "V" "M" ('[' :: ("ab".toList ++ ']' :: "c".toList)) =
      ('[' :: ("V".toList ++ "ab".toList ++ FORE_RESET.toList ++ "M".toList ++ [']'])) ++
        highlightChars "V" "M" "c".toList ∧
    highlightChars "V" "M" ('"' :: "xy".toList) = '"' :: highlightChars "V" "M" "xy".toList :=
  ⟨(claim_C7_highlight_substitution "V" "M").1 '[' ']' "ab".toList "c".toList
      (Or.inl ⟨rfl, rfl⟩) (by decide) (by decide),
    (claim_C7_highlight_substitution "V" "M").2 '"' '"' "xy".toList
      (Or.inr (Or.inl ⟨rfl, rfl⟩)) (by decide)⟩

/-- Claim C6, counterexample: the claim states the level label is wrapped as
`[` + level color + label + reset + `]` and that the level name is translated
for every record whose level is not DEBUG.  Both parts fail on the code: for
an INFO record (with translator prepending "T") the output does not start
with the claimed wrapping — the code renders level color + `[` + label + `]`
+ reset instead — and for a record at level 5 (≠ DEBUG) the name is not
translated at all (the code's condition is `levelno > DEBUG`), so no "T"
occurs anywhere in the output. -/
theorem claim_C6_counterexample :
    ("[" ++ LEVEL_COLORS INFO ++ "TINFO" ++ STYLE_RESET_ALL ++ "]").toList.isPrefixOf
        (CustomFormatter_format (fun s => "T" ++ s) ⟨INFO, "INFO", "m"⟩).toList = false ∧
    ¬ ('T' ∈ (CustomFormatter_format (fun s => "T" ++ s) ⟨5, "INFO", "m"⟩).toList) := by
  exact ⟨by decide, by decide⟩

/-- Claim C6, amended: in the colorizing formatter the textual level name is
passed through the translation collaborator exactly for records whose level
is greater than DEBUG (DEBUG and sub-DEBUG levels are never translated, and
for those the output does not depend on the translator at all), and in both
cases the rendered label — level color + `[` + label + `]` + reset — starts
the formatted output. -/
theorem claim_C6_amended (tr : String → String) (r : LogRecord) :
    (DEBUG < r.levelno →
      ∃ rest : String, CustomFormatter_format tr r =
        LEVEL_COLORS r.levelno ++ "[" ++ tr r.levelname ++ "]" ++ STYLE_RESET_ALL ++ rest) ∧
    (r.levelno ≤ DEBUG →
      (∃ rest : String, CustomFormatter_format tr r =
        LEVEL_COLORS r.levelno ++ "[" ++ r.levelname ++ "]" ++ STYLE_RESET_ALL ++ rest) ∧
      CustomFormatter_format tr r = CustomFormatter_format (fun s => s) r) := by
  constructor
  · intro hlt
    refine ⟨" " ++ (MESSAGE_COLORS r.levelno ++
      (highlightChars (VALUE_COLORS r.levelno) (MESSAGE_COLORS r.levelno)
        r.msg.toList).asString ++ STYLE_RESET_ALL), ?_⟩
    unfold CustomFormatter_format
    dsimp only [deepcopy]
    rw [if_pos hlt]
    simp [String.append_assoc]
  · intro hle
    have hnot : ¬ (DEBUG < r.levelno) := Nat.not_lt.mpr hle
    constructor
    · refine ⟨" " ++ (MESSAGE_COLORS r.levelno ++
        (highlightChars (VALUE_COLORS r.levelno) (MESSAGE_COLORS r.levelno)
          r.msg.toList).asString ++ STYLE_RESET_ALL), ?_⟩
      unfold CustomFormatter_format
      dsimp only [deepcopy]
      rw [if_neg hnot]
      simp [String.append_assoc]
    · unfold CustomFormatter_format
      dsimp only [deepcopy]
      rw [if_neg hnot, if_neg hnot]

/-- Claim C6 amended, witness: a WARNING record is translated and its label
starts the output; a DEBUG record is untranslated and translator-independent. -/
theorem claim_C6_amended_witness :
    (∃ rest : String, CustomFormatter_format (fun s => "T" ++ s) ⟨WARNING, "WARNING", "w"⟩ =
      LEVEL_COLORS WARNING ++ "[" ++ "TWARNING" ++ "]" ++ STYLE_RESET_ALL ++ rest) ∧
    CustomFormatter_format (fun s => "T" ++ s) ⟨DEBUG, "DEBUG", "d"⟩ =
      CustomFormatter_format (fun s => s) ⟨DEBUG, "DEBUG", "d"⟩ :=
  ⟨(claim_C6_amended (fun s => "T" ++ s) ⟨WARNING, "WARNING", "w"⟩).1 (by decide),
    ((claim_C6_amended (fun s => "T" ++ s) ⟨DEBUG, "DEBUG", "d"⟩).2 (by decide)).2⟩

/-- Checks whether an occurrence of `a` immediately followed by `b` appears
in the list. -/
def hasAdjacent (a b : Char) : List Char → Bool
  | x :: y :: t => (x == a && y == b) || hasAdjacent a b (y :: t)
  | _ => false

/-- A character that opens none of the three regex alternatives. -/
theorem delimClose_eq_none {c : Char} (h1 : c ≠ '[') (h2 : c ≠ '"')
    (h3 : c ≠ squote) : delimClose c = none := by
  unfold delimClose
  simp [h1, h2, h3]

/-- A string without any opening delimiter passes through the highlighting
substitution unchanged. -/
theorem highlightChars_of_no_opener (vc mc : String) (cs : List Char)
    (h : ∀ c ∈ cs, c ≠ '[' ∧ c ≠ '"' ∧ c ≠ squote) :
    highlightChars vc mc cs = cs := by
  induction cs with
  | nil => rfl
  | cons c rest ih =>
      have hc := h c (List.mem_cons_self c rest)
      rw [highlightChars_cons_of_no_delim vc mc rest
          (delimClose_eq_none hc.1 hc.2.1 hc.2.2),
        ih (fun x hx => h x (List.mem_cons_of_mem c hx))]

/-- Claim C10, counterexample: the claim states that every empty delimiter
pair in a message is left unchanged by the highlighting substitution.  On
the code this fails in three ways, all at INFO level: in `""a"` the pair's
second quote is consumed as the opening delimiter of the later match `"a"`;
in `"a""` — although no quote follows the pair — the pair's first quote is
consumed as the closing delimiter of the preceding match `"a"`; and in
`[a[]` the enclosing bracket match (inner content `a[`) swallows the empty
pair.  In each case the adjacent delimiter pair present in the input no
longer occurs in the output. -/
theorem claim_C10_counterexample :
    (hasAdjacent '"' '"' "\"\"a\"".toList = true ∧
      hasAdjacent '"' '"'
        (highlightChars (VALUE_COLORS INFO) (MESSAGE_COLORS INFO)
          "\"\"a\"".toList) = false) ∧
    (hasAdjacent '"' '"' "\"a\"\"".toList = true ∧
      hasAdjacent '"' '"'
        (highlightChars (VALUE_COLORS INFO) (MESSAGE_COLORS INFO)
          "\"a\"\"".toList) = false) ∧
    (hasAdjacent '[' ']' "[a[]".toList = true ∧
      hasAdjacent '[' ']'
        (highlightChars (VALUE_COLORS INFO) (MESSAGE_COLORS INFO)
          "[a[]".toList) = false) := by
  exact ⟨⟨by decide, by decide⟩, ⟨by decide, by decide⟩, ⟨by decide, by decide⟩⟩

/-- Claim C10, amended: an empty delimiter pair is never itself matched,
because a match requires at least one character of inner content; hence in a
message that contains no other occurrence of an opening delimiter (`[`, `"`
or `'`) besides the pair itself — wherever the pair sits in the message —
the highlighting substitution leaves the entire message, and in particular
the pair, unchanged.  (An empty pair can still be destroyed by an
overlapping non-empty match built from other delimiter occurrences.) -/
theorem claim_C10_empty_pairs (vc mc : String) (d d' : Char)
    (pre post : List Char)
    (hd : (d = '[' ∧ d' = ']') ∨ (d = '"' ∧ d' = '"') ∨
      (d = squote ∧ d' = squote))
    (hpre : ∀ c ∈ pre, c ≠ '[' ∧ c ≠ '"' ∧ c ≠ squote)
    (hpost : ∀ c ∈ post, c ≠ '[' ∧ c ≠ '"' ∧ c ≠ squote) :
    highlightChars vc mc (pre ++ d :: d' :: post) = pre ++ d :: d' :: post := by
  induction pre with
  | nil =>
      simp only [List.nil_append]
      have hpostu : highlightChars vc mc post = post :=
        highlightChars_of_no_opener vc mc post hpost
      rcases hd with ⟨h1, h2⟩ | ⟨h1, h2⟩ | ⟨h1, h2⟩ <;> subst h1 <;> subst h2
      · rw [highlightChars_cons_of_nomatch vc mc (']' :: post)
            (show delimClose '[' = some ']' by decide) (scanDelim_cons_self ']' post),
          highlightChars_cons_of_no_delim vc mc post
            (show delimClose ']' = none by decide), hpostu]
      · have hq : ('"' : Char) ∉ post := fun hmem => ((hpost _ hmem).2.1) rfl
        rw [highlightChars_cons_of_nomatch vc mc ('"' :: post)
            (show delimClose '"' = some '"' by decide) (scanDelim_cons_self '"' post),
          highlightChars_cons_of_nomatch vc mc post
            (show delimClose '"' = some '"' by decide) (scanDelim_none_of_not_mem hq),
          hpostu]
      · have hq : squote ∉ post := fun hmem => ((hpost _ hmem).2.2) rfl
        rw [highlightChars_cons_of_nomatch vc mc (squote :: post)
            (show delimClose squote = some squote by decide)
            (scanDelim_cons_self squote post),
          highlightChars_cons_of_nomatch vc mc post
            (show delimClose squote = some squote by decide)
            (scanDelim_none_of_not_mem hq),
          hpostu]
  | cons c p ih =>
      have hc := hpre c (List.mem_cons_self c p)
      rw [List.cons_append,
        highlightChars_cons_of_no_delim vc mc (p ++ d :: d' :: post)
          (delimClose_eq_none hc.1 hc.2.1 hc.2.2),
        ih (fun x hx => hpre x (List.mem_cons_of_mem c hx))]

/-- Claim C10 amended, witness: an empty quote pair in the middle of a
message with no other delimiter occurrences passes through unchanged. -/
theorem claim_C10_witness :
    highlightChars "V" "M" ("ab".toList ++ '"' :: '"' :: "cd".toList) =
      "ab".toList ++ '"' :: '"' :: "cd".toList :=
  claim_C10_empty_pairs "V" "M" '"' '"' "ab".toList "cd".toList
    (Or.inr (Or.inl ⟨rfl, rfl⟩)) (by decide) (by decide)

end Loggers
end KleinanzeigenBot
